import Mathlib

/-!
Verification of the MCPSEK continuous scanning engine (Go sources under
`internal/scanner`, `internal/discovery`, `internal/database`) against its
natural-language specification.

Modelling conventions:
* Go strings are modelled as `List Char` (`GoStr`).  All string contents that
  the claims touch are ASCII, where Go byte indexing and Lean character
  indexing agree; UTF-8 encoding is applied explicitly before hashing.
* `crypto/sha256` is modelled by a full executable SHA-256 implementation
  (`sha256HexStr`), so hash computations evaluate inside proofs.
* Regular-expression matching (Go `regexp`) is external library behaviour;
  each compiled pattern is abstracted as an opaque match/find function,
  collected in a `PatternCatalogue` record mirroring the process-wide
  pattern catalogue of the source.  Theorems quantify over catalogues.
* The relational store is modelled as an in-memory table of rows for the
  single server under consideration; `ON CONFLICT` keys follow the schema.
-/

/-- Go strings, modelled as lists of characters (ASCII-faithful). -/
abbrev GoStr := List Char

/-- Coerce a Lean string literal to the Go-string model. -/
def gs (s : String) : GoStr := s.toList

/-- Go `strings.HasPrefix`. -/
def goStartsWith (s p : GoStr) : Bool := p.isPrefixOf s

/-- Go `strings.HasSuffix`. -/
def goEndsWith (s p : GoStr) : Bool := p.isSuffixOf s

/-- Go `strings.TrimSuffix`: drop one copy of the suffix when present. -/
def goTrimSuffix (s suffix : GoStr) : GoStr :=
  if goEndsWith s suffix then s.take (s.length - suffix.length) else s

/-- Go `strings.Contains` (substring search). -/
def goContains : GoStr → GoStr → Bool
  | _, [] => true
  | [], _ :: _ => false
  | c :: rest, t => t.isPrefixOf (c :: rest) || goContains rest t

/-- The white-space set of Go `unicode.IsSpace` (`strings.TrimSpace`). -/
def goIsSpace (c : Char) : Bool :=
  c = ' ' || c = '\t' || c = '\n' || c.toNat = 11 || c.toNat = 12 ||
  c.toNat = 13 || c.toNat = 0x85 || c.toNat = 0xA0 || c.toNat = 0x1680 ||
  (0x2000 ≤ c.toNat && c.toNat ≤ 0x200A) || c.toNat = 0x2028 ||
  c.toNat = 0x2029 || c.toNat = 0x202F || c.toNat = 0x205F || c.toNat = 0x3000

/-- Go `strings.TrimSpace`: drop leading and trailing white space. -/
def goTrimSpace (s : GoStr) : GoStr :=
  ((s.dropWhile goIsSpace).reverse.dropWhile goIsSpace).reverse

/-- Go string comparison `<`: lexicographic on the character sequence
(UTF-8 byte order coincides with code-point order). -/
def goStrLt : GoStr → GoStr → Bool
  | [], [] => false
  | [], _ :: _ => true
  | _ :: _, [] => false
  | a :: as, b :: bs =>
    if a.toNat < b.toNat then true
    else if b.toNat < a.toNat then false
    else goStrLt as bs

/-! Order lemmas for `goStrLt` and a structural comparison sort used to
model Go `sort.Slice` (insertion sort; coincides with any comparison sort
on inputs whose keys are pairwise distinct, and keeps the input order of
equal keys as Go's small-slice insertion sort does). -/

theorem goStrLt_cons_iff {a b : Char} {as bs : GoStr} :
    goStrLt (a :: as) (b :: bs) = true ↔
      a.toNat < b.toNat ∨ (a.toNat = b.toNat ∧ goStrLt as bs = true) := by
  simp only [goStrLt]
  split_ifs with h1 h2
  · simp [h1]
  · simp; omega
  · constructor
    · intro h; exact Or.inr ⟨by omega, h⟩
    · rintro (h | ⟨_, h⟩)
      · omega
      · exact h

theorem char_eq_of_toNat_eq {a b : Char} (h : a.toNat = b.toNat) : a = b :=
  Char.ext (UInt32.ext h)

theorem goStrLt_asymm : ∀ {a b : GoStr},
    goStrLt a b = true → goStrLt b a = true → False
  | [], [], h, _ => by simp [goStrLt] at h
  | [], _ :: _, _, h => by simp [goStrLt] at h
  | _ :: _, [], h, _ => by simp [goStrLt] at h
  | _ :: as, _ :: bs, h1, h2 => by
    rw [goStrLt_cons_iff] at h1 h2
    rcases h1 with h1 | ⟨e1, h1⟩ <;> rcases h2 with h2 | ⟨e2, h2⟩ <;> try omega
    exact goStrLt_asymm h1 h2

theorem goStrLt_trans : ∀ {a b c : GoStr},
    goStrLt a b = true → goStrLt b c = true → goStrLt a c = true
  | [], [], _, h, _ => by simp [goStrLt] at h
  | [], _ :: _, [], _, h => by simp [goStrLt] at h
  | [], _ :: _, _ :: _, _, _ => by simp [goStrLt]
  | _ :: _, [], _, h, _ => by simp [goStrLt] at h
  | _ :: _, _ :: _, [], _, h => by simp [goStrLt] at h
  | _ :: as, _ :: bs, _ :: cs, h1, h2 => by
    rw [goStrLt_cons_iff] at h1 h2 ⊢
    rcases h1 with h1 | ⟨e1, h1⟩ <;> rcases h2 with h2 | ⟨e2, h2⟩
    · exact Or.inl (by omega)
    · exact Or.inl (by omega)
    · exact Or.inl (by omega)
    · exact Or.inr ⟨by omega, goStrLt_trans h1 h2⟩

theorem goStrLt_conn : ∀ {a b : GoStr},
    goStrLt a b = false → goStrLt b a = false → a = b
  | [], [], _, _ => rfl
  | [], _ :: _, h, _ => by simp [goStrLt] at h
  | _ :: _, [], _, h => by simp [goStrLt] at h
  | a :: as, b :: bs, h1, h2 => by
    have h1' := h1
    rw [← Bool.not_eq_true, goStrLt_cons_iff] at h1 h2
    push_neg at h1 h2
    have he : a.toNat = b.toNat := by omega
    have has : goStrLt as bs = false := by
      cases h : goStrLt as bs
      · rfl
      · exact absurd h (h1.2 he)
    have hbs : goStrLt bs as = false := by
      cases h : goStrLt bs as
      · rfl
      · exact absurd h (h2.2 he.symm)
    rw [char_eq_of_toNat_eq he, goStrLt_conn has hbs]

theorem goStrLt_trichotomy (a b : GoStr) :
    goStrLt a b = true ∨ goStrLt b a = true ∨ a = b := by
  cases h1 : goStrLt a b
  · cases h2 : goStrLt b a
    · exact Or.inr (Or.inr (goStrLt_conn h1 h2))
    · exact Or.inr (Or.inl rfl)
  · exact Or.inl rfl

def insertLe {α : Type} (le : α → α → Bool) (x : α) : List α → List α
  | [] => [x]
  | y :: ys => if le x y then x :: y :: ys else y :: insertLe le x ys

def sortLe {α : Type} (le : α → α → Bool) : List α → List α
  | [] => []
  | x :: xs => insertLe le x (sortLe le xs)

theorem insertLe_perm {α : Type} (le : α → α → Bool) (x : α) :
    ∀ l : List α, (insertLe le x l).Perm (x :: l)
  | [] => List.Perm.refl _
  | y :: ys => by
    simp only [insertLe]
    split
    · exact List.Perm.refl _
    · exact ((insertLe_perm le x ys).cons y).trans (List.Perm.swap x y ys)

theorem sortLe_perm {α : Type} (le : α → α → Bool) :
    ∀ l : List α, (sortLe le l).Perm l
  | [] => List.Perm.refl _
  | x :: xs =>
    (insertLe_perm le x (sortLe le xs)).trans ((sortLe_perm le xs).cons x)

theorem pairwise_insertLe {α : Type} (le : α → α → Bool)
    (hconn : ∀ a b, le a b = false → le b a = true)
    (htrans : ∀ a b c, le a b = true → le b c = true → le a c = true)
    (x : α) : ∀ l : List α, l.Pairwise (le · · = true) →
      (insertLe le x l).Pairwise (le · · = true)
  | [], _ => by simp [insertLe]
  | y :: ys, hl => by
    rcases List.pairwise_cons.mp hl with ⟨hy, hys⟩
    simp only [insertLe]
    split
    · rename_i hxy
      refine List.pairwise_cons.mpr ⟨?_, hl⟩
      intro z hz
      rcases List.mem_cons.mp hz with rfl | hz
      · exact hxy
      · exact htrans x y z hxy (hy z hz)
    · rename_i hxy
      refine List.pairwise_cons.mpr ⟨?_, pairwise_insertLe le hconn htrans x ys hys⟩
      intro z hz
      rcases List.mem_cons.mp ((insertLe_perm le x ys).mem_iff.mp hz) with heq | hz
      · rw [heq]; exact hconn x y (by simpa using hxy)
      · exact hy z hz

theorem pairwise_sortLe {α : Type} (le : α → α → Bool)
    (hconn : ∀ a b, le a b = false → le b a = true)
    (htrans : ∀ a b c, le a b = true → le b c = true → le a c = true) :
    ∀ l : List α, (sortLe le l).Pairwise (le · · = true)
  | [] => List.Pairwise.nil
  | x :: xs =>
    pairwise_insertLe le hconn htrans x (sortLe le xs)
      (pairwise_sortLe le hconn htrans xs)

/-! SHA-256 (model of Go `crypto/sha256` + `fmt.Sprintf` with the hex verb),
implemented executably so hashes evaluate inside proofs. -/

/-- Addition modulo 2^32. -/
def add32 (a b : Nat) : Nat := (a + b) % 4294967296

/-- Right rotation of a 32-bit word. -/
def rotr32 (n x : Nat) : Nat :=
  ((x >>> n) ||| (x <<< (32 - n))) % 4294967296

/-- SHA-256 choice function. -/
def shaCh (x y z : Nat) : Nat := (x &&& y) ^^^ ((x ^^^ 4294967295) &&& z)

/-- SHA-256 majority function. -/
def shaMaj (x y z : Nat) : Nat := (x &&& y) ^^^ (x &&& z) ^^^ (y &&& z)

/-- SHA-256 big sigma 0. -/
def bigSigma0 (x : Nat) : Nat := rotr32 2 x ^^^ rotr32 13 x ^^^ rotr32 22 x

/-- SHA-256 big sigma 1. -/
def bigSigma1 (x : Nat) : Nat := rotr32 6 x ^^^ rotr32 11 x ^^^ rotr32 25 x

/-- SHA-256 small sigma 0. -/
def smallSigma0 (x : Nat) : Nat := rotr32 7 x ^^^ rotr32 18 x ^^^ (x >>> 3)

/-- SHA-256 small sigma 1. -/
def smallSigma1 (x : Nat) : Nat := rotr32 17 x ^^^ rotr32 19 x ^^^ (x >>> 10)

/-- The 64 SHA-256 round constants. -/
def sha256K : List Nat :=
  [1116352408, 1899447441, 3049323471, 3921009573, 961987163,
   1508970993, 2453635748, 2870763221, 3624381080, 310598401,
   607225278, 1426881987, 1925078388, 2162078206, 2614888103,
   3248222580, 3835390401, 4022224774, 264347078, 604807628,
   770255983, 1249150122, 1555081692, 1996064986, 2554220882,
   2821834349, 2952996808, 3210313671, 3336571891, 3584528711,
   113926993, 338241895, 666307205, 773529912, 1294757372,
   1396182291, 1695183700, 1986661051, 2177026350, 2456956037,
   2730485921, 2820302411, 3259730800, 3345764771, 3516065817,
   3600352804, 4094571909, 275423344, 430227734, 506948616,
   659060556, 883997877, 958139571, 1322822218, 1537002063,
   1747873779, 1955562222, 2024104815, 2227730452, 2361852424,
   2428436474, 2756734187, 3204031479, 3329325298]

/-- The SHA-256 initial hash state. -/
def sha256InitState : List Nat :=
  [1779033703, 3144134277, 1013904242, 2773480762,
   1359893119, 2600822924, 528734635, 1541459225]

/-- Group a byte list into big-endian 32-bit words. -/
def toWords32 : List Nat → List Nat
  | a :: b :: c :: d :: rest =>
    (((a * 256 + b) * 256 + c) * 256 + d) :: toWords32 rest
  | _ => []

/-- Next word of the SHA-256 message schedule. -/
def nextScheduleWord (ws : List Nat) : Nat :=
  let i := ws.length
  add32 (add32 (smallSigma1 (ws.getD (i - 2) 0)) (ws.getD (i - 7) 0))
    (add32 (smallSigma0 (ws.getD (i - 15) 0)) (ws.getD (i - 16) 0))

/-- Extend the 16-word schedule by the given number of words. -/
def extendSchedule : Nat → List Nat → List Nat
  | 0, ws => ws
  | k + 1, ws => extendSchedule k (ws ++ [nextScheduleWord ws])

/-- One SHA-256 compression round on an 8-word state. -/
def compressRound (st : List Nat) (k w : Nat) : List Nat :=
  match st with
  | [a, b, c, d, e, f, g, h] =>
    let t1 := add32 h (add32 (bigSigma1 e) (add32 (shaCh e f g) (add32 k w)))
    let t2 := add32 (bigSigma0 a) (shaMaj a b c)
    [add32 t1 t2, a, b, c, add32 d t1, e, f, g]
  | st => st

/-- Compress one 64-byte block into the running state. -/
def compressBlock (h : List Nat) (block : List Nat) : List Nat :=
  let ws := extendSchedule 48 (toWords32 block)
  let st := (sha256K.zip ws).foldl (fun st kw => compressRound st kw.1 kw.2) h
  h.zipWith add32 st

/-- The 8-byte big-endian length trailer of SHA-256 padding. -/
def lenBytes64 (n : Nat) : List Nat :=
  [(n >>> 56) % 256, (n >>> 48) % 256, (n >>> 40) % 256, (n >>> 32) % 256,
   (n >>> 24) % 256, (n >>> 16) % 256, (n >>> 8) % 256, n % 256]

/-- SHA-256 padding: 0x80, zeros to 56 mod 64, bit length. -/
def padMessage (msg : List Nat) : List Nat :=
  let len := msg.length
  let zeros := (119 - len % 64) % 64
  msg ++ 128 :: List.replicate zeros 0 ++ lenBytes64 (len * 8)

/-- Split into 64-byte chunks (fuel-structured so it reduces in the kernel). -/
def chunks64Aux : Nat → List Nat → List (List Nat)
  | 0, _ => []
  | _, [] => []
  | fuel + 1, bs => bs.take 64 :: chunks64Aux fuel (bs.drop 64)

/-- Split a byte list into 64-byte chunks. -/
def chunks64 (bs : List Nat) : List (List Nat) := chunks64Aux bs.length bs

/-- Big-endian bytes of a 32-bit word. -/
def wordBytes32 (w : Nat) : List Nat :=
  [(w >>> 24) % 256, (w >>> 16) % 256, (w >>> 8) % 256, w % 256]

/-- SHA-256 digest (32 bytes) of a byte list. -/
def sha256Bytes (msg : List Nat) : List Nat :=
  (((chunks64 (padMessage msg)).foldl compressBlock sha256InitState).map
    wordBytes32).flatten

/-- Lower-case hex digit. -/
def hexDigitChar (n : Nat) : Char :=
  if n < 10 then Char.ofNat (48 + n) else Char.ofNat (87 + n)

/-- Two lower-case hex digits of a byte, as in Go hex formatting. -/
def byteHex (b : Nat) : List Char := [hexDigitChar (b / 16), hexDigitChar (b % 16)]

/-- UTF-8 encoding of a character (Go `[]byte(string)` conversion). -/
def utf8Encode (c : Char) : List Nat :=
  let n := c.toNat
  if n < 128 then [n]
  else if n < 2048 then [192 ||| (n >>> 6), 128 ||| (n &&& 63)]
  else if n < 65536 then
    [224 ||| (n >>> 12), 128 ||| ((n >>> 6) &&& 63), 128 ||| (n &&& 63)]
  else
    [240 ||| (n >>> 18), 128 ||| ((n >>> 12) &&& 63),
     128 ||| ((n >>> 6) &&& 63), 128 ||| (n &&& 63)]

/-- UTF-8 byte sequence of a Go string. -/
def strBytes (s : GoStr) : List Nat := (s.map utf8Encode).flatten

/-- Lower-case hex SHA-256 of a Go string: Go
`fmt.Sprintf` of `sha256.Sum256([]byte(s))` with the hex verb. -/
def sha256HexStr (s : GoStr) : GoStr :=
  ((sha256Bytes (strBytes s)).map byteHex).flatten

/-- Sanity check against the FIPS 180-4 test vector for "abc". -/
theorem sha256HexStr_abc : sha256HexStr (gs "abc") =
    gs "ba7816bf8f01cfea414140de5dae2223b00361a396177a9cb410ff61f20015ad" := by
  decide

/-- `ComputeTrustScore` from `internal/scanner/score.go`: start at 100,
subtract per-check penalties chosen by a switch on the status string,
then floor at 0 and cap at 100. -/
def ComputeTrustScore (integrity auth exposure : GoStr) : Int :=
  let score : Int := 100
  let score :=
    if integrity = gs "critical" then score - 50
    else if integrity = gs "warning" then score - 15
    else score
  let score :=
    if auth = gs "critical" then score - 35
    else if auth = gs "warning" then score - 15
    else score
  let score :=
    if exposure = gs "critical" then score - 30
    else if exposure = gs "warning" then score - 10
    else score
  let score := if score < 0 then 0 else score
  let score := if score > 100 then 100 else score
  score

/-- Penalty table for the integrity check, as the spec states it. -/
def integrityPenalty (s : GoStr) : Int :=
  if s = gs "critical" then 50 else if s = gs "warning" then 15 else 0

/-- Penalty table for the auth check, as the spec states it. -/
def authPenalty (s : GoStr) : Int :=
  if s = gs "critical" then 35 else if s = gs "warning" then 15 else 0

/-- Penalty table for the exposure check, as the spec states it. -/
def exposurePenalty (s : GoStr) : Int :=
  if s = gs "critical" then 30 else if s = gs "warning" then 10 else 0

set_option maxHeartbeats 2000000 in
/-- C2: for every triple of statuses the trust score equals 100 minus the
penalties (50/15 integrity, 35/15 auth, 30/10 exposure, 0 otherwise)
clamped to [0,100]; it always lies in [0,100]; three critical statuses give
0 and three pass statuses give 100.  Determinism and freedom from side
effects hold because `ComputeTrustScore` is a pure Lean function of its
three arguments. -/
theorem C2_trust_score (integrity auth exposure : GoStr) :
    ComputeTrustScore integrity auth exposure =
      max 0 (min 100
        (100 - integrityPenalty integrity - authPenalty auth -
          exposurePenalty exposure)) ∧
    0 ≤ ComputeTrustScore integrity auth exposure ∧
    ComputeTrustScore integrity auth exposure ≤ 100 ∧
    ComputeTrustScore (gs "critical") (gs "critical") (gs "critical") = 0 ∧
    ComputeTrustScore (gs "pass") (gs "pass") (gs "pass") = 100 := by
  refine ⟨?_, ?_, ?_, by decide, by decide⟩ <;>
    (simp only [ComputeTrustScore, integrityPenalty, authPenalty,
       exposurePenalty]
     split_ifs <;> omega)

/-! Tool extraction (`internal/scanner/integrity.go`). -/

/-- `ToolDefinition` from `internal/scanner/integrity.go`.  `Parameters`
models Go `map[string]interface{}` by its key list (only the keys are ever
inspected by the analyser); `none` models a nil map. -/
structure ToolDefinition where
  Name : GoStr
  Description : GoStr
  Parameters : Option (List GoStr)
  Hash : GoStr
deriving DecidableEq

/-- `truncate` from `internal/scanner/integrity.go`: strings of at most
`maxLen` characters are returned unchanged, longer ones are cut to `maxLen`
characters and an ellipsis is appended. -/
def truncate (s : GoStr) (maxLen : Nat) : GoStr :=
  if s.length ≤ maxLen then s else s.take maxLen ++ gs "..."

/-- `computeHash` from `internal/scanner/integrity.go`:
SHA-256 of `name + ":" + description`, hex encoded. -/
def computeHash (name description : GoStr) : GoStr :=
  sha256HexStr (name ++ gs ":" ++ description)

/-- Construction of one `ToolDefinition` from a regex submatch
`(match[1], match[2])`, as every extraction loop in
`extractTypeScriptTools` and `extractPythonTools` performs it:
the stored description is truncated to 2000, the hash is computed over the
un-truncated capture, and `Parameters` is never populated. -/
def toolFromMatch (m : GoStr × GoStr) : ToolDefinition :=
  { Name := m.1
    Description := truncate m.2 2000
    Parameters := none
    Hash := computeHash m.1 m.2 }

/-- `extractTypeScriptTools`: the three pattern families are abstracted as
their submatch lists (regex evaluation is external library behaviour);
each match is converted by `toolFromMatch` and the families are
concatenated in source order. -/
def extractTypeScriptTools (matches1 matches2 matches3 : List (GoStr × GoStr)) :
    List ToolDefinition :=
  matches1.map toolFromMatch ++ matches2.map toolFromMatch ++
    matches3.map toolFromMatch

/-- `extractPythonTools`: same construction over the two Python pattern
families. -/
def extractPythonTools (matches1 matches2 : List (GoStr × GoStr)) :
    List ToolDefinition :=
  matches1.map toolFromMatch ++ matches2.map toolFromMatch

/-- Projection: the stored description is the truncated capture. -/
theorem toolFromMatch_Description (m : GoStr × GoStr) :
    (toolFromMatch m).Description = truncate m.2 2000 := rfl

/-- Projection: the stored hash is computed from the raw capture. -/
theorem toolFromMatch_Hash (m : GoStr × GoStr) :
    (toolFromMatch m).Hash = computeHash m.1 m.2 := rfl

/-- The stored description of an extracted tool has at most 2003
characters: 2000 retained plus the appended ellipsis. -/
theorem truncate_2000_length (s : GoStr) : (truncate s 2000).length ≤ 2003 := by
  have h3 : (gs "...").length = 3 := rfl
  unfold truncate
  split
  · omega
  · simp only [List.length_append, List.length_take]
    omega

/-- C8 (amended): every extracted tool's stored description is `truncate`
of the captured description: unchanged when the capture has at most 2000
characters, else cut to 2000 characters with an appended `"..."`; hence its
length is at most 2003 (not 2000) characters. -/
theorem C8_description_truncated
    (ts1 ts2 ts3 p1 p2 : List (GoStr × GoStr)) :
    (∀ t ∈ extractTypeScriptTools ts1 ts2 ts3, t.Description.length ≤ 2003) ∧
    (∀ t ∈ extractPythonTools p1 p2, t.Description.length ≤ 2003) ∧
    (∀ m : GoStr × GoStr, (toolFromMatch m).Description = truncate m.2 2000) ∧
    (∀ m : GoStr × GoStr, m.2.length ≤ 2000 →
      (toolFromMatch m).Description = m.2) ∧
    (∀ m : GoStr × GoStr, 2000 < m.2.length →
      (toolFromMatch m).Description = m.2.take 2000 ++ gs "...") := by
  refine ⟨?_, ?_, fun m => rfl, fun m hm => ?_, fun m hm => ?_⟩
  · intro t ht
    simp only [extractTypeScriptTools, List.mem_append, List.mem_map] at ht
    rcases ht with (⟨m, _, rfl⟩ | ⟨m, _, rfl⟩) | ⟨m, _, rfl⟩ <;>
      exact truncate_2000_length m.2
  · intro t ht
    simp only [extractPythonTools, List.mem_append, List.mem_map] at ht
    rcases ht with ⟨m, _, rfl⟩ | ⟨m, _, rfl⟩ <;> exact truncate_2000_length m.2
  · simp only [toolFromMatch, truncate, if_pos hm]
  · simp only [toolFromMatch, truncate, if_neg (by omega : ¬ m.2.length ≤ 2000)]

/-- C8 witness: concrete instantiation of the amended theorem. -/
theorem C8_description_truncated_witness :
    (toolFromMatch (gs "t", gs "d")).Description = gs "d" :=
  (C8_description_truncated [] [] [] [] []).2.2.2.1 (gs "t", gs "d") (by decide)

/-- When the input exceeds the bound, the truncated string has exactly
`maxLen + 3` characters (the retained prefix plus the ellipsis). -/
theorem truncate_length_of_long (s : GoStr) (maxLen : Nat)
    (h : maxLen < s.length) : (truncate s maxLen).length = maxLen + 3 := by
  have h3 : (gs "...").length = 3 := rfl
  unfold truncate
  rw [if_neg (by omega)]
  simp only [List.length_append, List.length_take, h3]
  omega

/-- A string of the form `l ++ "..."` is its own truncation at `l.length`. -/
theorem truncate_append_ellipsis (l : GoStr) (n : Nat) (h : l.length = n) :
    truncate (l ++ gs "...") n = l ++ gs "..." := by
  have h3 : (gs "...").length = 3 := rfl
  unfold truncate
  rw [if_neg (by simp only [List.length_append, h3]; omega)]
  rw [← h, List.take_left]

/-- C8 counterexample: a capture of 2001 characters yields an extracted
tool whose stored description has 2003 characters, refuting the claimed
2000-character bound. -/
theorem C8_counterexample :
    ¬ (∀ t ∈ extractTypeScriptTools [(gs "t", List.replicate 2001 'a')] [] [],
        t.Description.length ≤ 2000) := by
  intro h
  have ht := h (toolFromMatch (gs "t", List.replicate 2001 'a'))
    (List.mem_append_left _ (List.mem_append_left _
      (List.mem_map_of_mem toolFromMatch (List.Mem.head _))))
  have hdl : (toolFromMatch (gs "t", List.replicate 2001 'a')).Description.length
      = 2003 := by
    rw [toolFromMatch_Description]
    exact truncate_length_of_long _ _ (by rw [List.length_replicate]; omega)
  omega

/-- C10 (amended): the content hash of an extracted tool is computed over
the full un-truncated capture while the stored description is the truncated
text; when the description was not altered by truncation (in particular for
captures of at most 2000 characters) the hash recomputed from the stored
fields has the same preimage and therefore agrees, and when truncation did
alter it the recomputation hashes a different preimage. -/
theorem C10_hash_over_untruncated (m : GoStr × GoStr) :
    (toolFromMatch m).Hash = sha256HexStr (m.1 ++ gs ":" ++ m.2) ∧
    (toolFromMatch m).Description = truncate m.2 2000 ∧
    ((toolFromMatch m).Description = m.2 →
      (toolFromMatch m).Hash =
        sha256HexStr (m.1 ++ gs ":" ++ (toolFromMatch m).Description)) ∧
    (m.2.length ≤ 2000 →
      (toolFromMatch m).Hash =
        sha256HexStr (m.1 ++ gs ":" ++ (toolFromMatch m).Description)) ∧
    ((toolFromMatch m).Description ≠ m.2 →
      m.1 ++ gs ":" ++ (toolFromMatch m).Description ≠ m.1 ++ gs ":" ++ m.2) := by
  refine ⟨rfl, rfl, fun h => ?_, fun h => ?_, fun h heq => ?_⟩
  · rw [h]; rfl
  · have hds : (toolFromMatch m).Description = m.2 := by
      simp only [toolFromMatch, truncate, if_pos h]
    rw [hds]; rfl
  · exact h (List.append_cancel_left heq)

/-- C10 witness: concrete instantiation of the amended theorem. -/
theorem C10_hash_over_untruncated_witness :
    (toolFromMatch (gs "n", gs "d")).Hash =
      sha256HexStr (gs "n" ++ gs ":" ++
        (toolFromMatch (gs "n", gs "d")).Description) :=
  (C10_hash_over_untruncated (gs "n", gs "d")).2.2.2.1 (by decide)

/-- C10 counterexample: a 2003-character capture that already ends in
`"..."` is longer than 2000 characters yet is its own truncation, so the
stored hash equals the hash recomputed from the stored fields, refuting
the claimed inequality. -/
theorem C10_counterexample :
    2000 < (List.replicate 2000 'a' ++ gs "...").length ∧
    (toolFromMatch (gs "n", List.replicate 2000 'a' ++ gs "...")).Hash =
      sha256HexStr (gs "n" ++ gs ":" ++
        (toolFromMatch (gs "n", List.replicate 2000 'a' ++ gs "...")).Description) := by
  have h3 : (gs "...").length = 3 := rfl
  have hd : (toolFromMatch (gs "n", List.replicate 2000 'a' ++ gs "...")).Description
      = List.replicate 2000 'a' ++ gs "..." := by
    rw [toolFromMatch_Description]
    exact truncate_append_ellipsis _ _ (List.length_replicate 2000 'a')
  refine ⟨?_, ?_⟩
  · simp only [List.length_append, List.length_replicate, h3]
    omega
  · rw [hd, toolFromMatch_Hash]
    rfl

/-! Composite tool-set hash (`computeToolsHash`, `internal/scanner/scanner.go`). -/

/-- The comparison used by `sort.Slice` in `computeToolsHash`:
`sortedTools[i].Name < sortedTools[j].Name` on Go strings. -/
def byNameLe (a b : ToolDefinition) : Bool := !(goStrLt b.Name a.Name)

/-- `byNameLe` is connex. -/
theorem byNameLe_conn (a b : ToolDefinition) (h : byNameLe a b = false) :
    byNameLe b a = true := by
  unfold byNameLe at h ⊢
  simp only [Bool.not_eq_false'] at h
  cases hab : goStrLt a.Name b.Name
  · rfl
  · exact (goStrLt_asymm hab h).elim

/-- `byNameLe` is transitive. -/
theorem byNameLe_trans (a b c : ToolDefinition) (h1 : byNameLe a b = true)
    (h2 : byNameLe b c = true) : byNameLe a c = true := by
  unfold byNameLe at h1 h2 ⊢
  simp only [Bool.not_eq_true'] at h1 h2
  simp only [Bool.not_eq_true']
  cases hca : goStrLt c.Name a.Name
  · rfl
  · rcases goStrLt_trichotomy b.Name c.Name with hbc | hcb | heq
    · rw [goStrLt_trans hbc hca] at h1; exact h1
    · rw [hcb] at h2; exact h2
    · rw [heq] at h1; rw [h1] at hca; exact hca.symm

/-- `computeToolsHash` from `internal/scanner/scanner.go`: empty list gives
the empty string; otherwise sort a copy of the tools by name via
`sort.Slice`, write each tool's hash followed by `"|"` into a string
builder, and hex SHA-256 the built string. -/
def computeToolsHash (tools : List ToolDefinition) : GoStr :=
  if tools.length = 0 then gs ""
  else
    let sortedTools := sortLe byNameLe tools
    let content := sortedTools.foldl (fun acc t => acc ++ t.Hash ++ gs "|") []
    sha256HexStr content

/-- The builder loop of `computeToolsHash` concatenates, in order, each
hash followed by the separator. -/
theorem foldl_hashBar (l : List ToolDefinition) : ∀ acc : GoStr,
    l.foldl (fun acc t => acc ++ t.Hash ++ gs "|") acc =
      acc ++ (l.map (fun t => t.Hash ++ gs "|")).flatten := by
  induction l with
  | nil => intro acc; simp
  | cons t ts ih =>
    intro acc
    simp only [List.foldl_cons, List.map_cons, List.flatten_cons, ih]
    simp [List.append_assoc]

/-- Sorting by name is invariant under permutation when names are
pairwise distinct. -/
theorem sortLe_byName_eq_of_perm (l₁ l₂ : List ToolDefinition)
    (hperm : l₁.Perm l₂) (hnd : (l₁.map ToolDefinition.Name).Nodup) :
    sortLe byNameLe l₁ = sortLe byNameLe l₂ := by
  haveI : IsAntisymm ToolDefinition (fun a b => goStrLt a.Name b.Name = true) :=
    ⟨fun a b h1 h2 => (goStrLt_asymm h1 h2).elim⟩
  have hperm12 : (sortLe byNameLe l₁).Perm (sortLe byNameLe l₂) :=
    (sortLe_perm byNameLe l₁).trans (hperm.trans (sortLe_perm byNameLe l₂).symm)
  have himp : ∀ a b : ToolDefinition, byNameLe a b = true → a.Name ≠ b.Name →
      goStrLt a.Name b.Name = true := by
    intro a b hle hne
    unfold byNameLe at hle
    simp only [Bool.not_eq_true'] at hle
    rcases goStrLt_trichotomy a.Name b.Name with h | h | h
    · exact h
    · rw [h] at hle; exact Bool.noConfusion hle
    · exact (hne h).elim
  have sorted : ∀ l : List ToolDefinition, (l.map ToolDefinition.Name).Nodup →
      (sortLe byNameLe l).Sorted (fun a b => goStrLt a.Name b.Name = true) := by
    intro l hl
    have hpair := pairwise_sortLe byNameLe byNameLe_conn byNameLe_trans l
    have hmapnd : ((sortLe byNameLe l).map ToolDefinition.Name).Nodup :=
      ((sortLe_perm byNameLe l).map ToolDefinition.Name).symm.nodup hl
    have hne : (sortLe byNameLe l).Pairwise (fun a b => a.Name ≠ b.Name) :=
      List.pairwise_map.mp hmapnd
    exact List.Pairwise.imp₂ himp hpair hne
  exact List.eq_of_perm_of_sorted hperm12 (sorted l₁ hnd)
    (sorted l₂ ((hperm.map ToolDefinition.Name).nodup hnd))

/-- C3 (amended): the composite tool-set hash of a non-empty tool list is
the SHA-256 of the individual tool hashes sorted by tool name ascending,
each hash followed by a `"|"` terminator (including the last one, rather
than `"|"` appearing only between hashes); the empty tool list yields the
empty string; and the result is invariant under any permutation of the
input list provided the tool names are pairwise distinct (with duplicate
names the comparison sort keys collide and the order of their hashes in
the preimage follows the input order). -/
theorem C3_tools_hash (tools l₁ l₂ : List ToolDefinition) (hperm : l₁.Perm l₂)
    (hnd : (l₁.map ToolDefinition.Name).Nodup) :
    computeToolsHash [] = gs "" ∧
    (tools ≠ [] →
      computeToolsHash tools =
        sha256HexStr (((sortLe byNameLe tools).map
          (fun t => t.Hash ++ gs "|")).flatten)) ∧
    computeToolsHash l₁ = computeToolsHash l₂ := by
  refine ⟨rfl, fun hne => ?_, ?_⟩
  · have hl : ¬ tools.length = 0 := by simpa [List.length_eq_zero] using hne
    simp only [computeToolsHash, if_neg hl]
    rw [foldl_hashBar, List.nil_append]
  · by_cases h : l₁ = []
    · subst h
      rw [hperm.symm.eq_nil]
    · have hl1 : ¬ l₁.length = 0 := by simpa [List.length_eq_zero] using h
      have hl2 : ¬ l₂.length = 0 := by rw [← hperm.length_eq]; exact hl1
      simp only [computeToolsHash, if_neg hl1, if_neg hl2]
      rw [sortLe_byName_eq_of_perm l₁ l₂ hperm hnd]

/-- C3 witness: concrete instantiation of the amended theorem on a
singleton list and on a two-element permutation with distinct names. -/
theorem C3_tools_hash_witness :
    computeToolsHash [⟨gs "a", gs "d", none, gs "h1"⟩] =
      sha256HexStr (((sortLe byNameLe [⟨gs "a", gs "d", none, gs "h1"⟩]).map
        (fun t => t.Hash ++ gs "|")).flatten) ∧
    computeToolsHash
        [⟨gs "a", gs "d", none, gs "h1"⟩, ⟨gs "b", gs "e", none, gs "h2"⟩] =
      computeToolsHash
        [⟨gs "b", gs "e", none, gs "h2"⟩, ⟨gs "a", gs "d", none, gs "h1"⟩] :=
  ⟨(C3_tools_hash [⟨gs "a", gs "d", none, gs "h1"⟩]
      [⟨gs "a", gs "d", none, gs "h1"⟩] [⟨gs "a", gs "d", none, gs "h1"⟩]
      (List.Perm.refl _) (by decide)).2.1 (by decide),
   (C3_tools_hash []
      [⟨gs "a", gs "d", none, gs "h1"⟩, ⟨gs "b", gs "e", none, gs "h2"⟩]
      [⟨gs "b", gs "e", none, gs "h2"⟩, ⟨gs "a", gs "d", none, gs "h1"⟩]
      (List.Perm.swap _ _ _) (by decide)).2.2⟩

/-- C3 counterexample: on a singleton list the claimed reading (hashes
joined with `"|"` only between entries) predicts the SHA-256 of `"h"`
alone, but the code hashes `"h|"`; and with two tools sharing one name the
composite hash is not invariant under swapping them. -/
theorem C3_counterexample :
    computeToolsHash [⟨gs "a", gs "d", none, gs "h"⟩] ≠ sha256HexStr (gs "h") ∧
    computeToolsHash
        [⟨gs "a", gs "d", none, gs "h1"⟩, ⟨gs "a", gs "e", none, gs "h2"⟩] ≠
      computeToolsHash
        [⟨gs "a", gs "e", none, gs "h2"⟩, ⟨gs "a", gs "d", none, gs "h1"⟩] := by
  constructor <;> decide

/-! Discovery URL canonicalisation (`normalizeGitHubURL`,
`internal/discovery/npm.go`). -/

/-- The rewriting pipeline of `normalizeGitHubURL`
(`internal/discovery/npm.go`) before the final `github.com` membership
test.  The source's `strings.Replace(rawURL, "git://", "https://", 1)` is
guarded by `strings.HasPrefix(rawURL, "git://")`, under which the single
replaced occurrence is exactly the prefix. -/
def normalizeCore (rawURL : GoStr) : GoStr :=
  let u1 := goTrimSpace rawURL
  let u2 := if goStartsWith u1 (gs "git://") then gs "https://" ++ u1.drop 6
            else u1
  let u3 := if goStartsWith u2 (gs "git+") then u2.drop 4 else u2
  let u4 := if goStartsWith u3 (gs "git@github.com:")
            then gs "https://github.com/" ++ u3.drop 15 else u3
  goTrimSuffix u4 (gs ".git")

/-- `normalizeGitHubURL` from `internal/discovery/npm.go`: the rewriting
pipeline followed by rejection (empty result) of URLs that do not contain
`github.com`. -/
def normalizeGitHubURL (rawURL : GoStr) : GoStr :=
  let u5 := normalizeCore rawURL
  if goContains u5 (gs "github.com") then u5 else gs ""

/-- Trimming a suffix that is not present is the identity. -/
theorem goTrimSuffix_of_not (s t : GoStr) (h : goEndsWith s t = false) :
    goTrimSuffix s t = s := by
  unfold goTrimSuffix
  rw [h]
  simp

/-- Every non-empty canonicalisation output contains `github.com`. -/
theorem normalizeGitHubURL_contains (s : GoStr) :
    normalizeGitHubURL s = gs "" ∨
      goContains (normalizeGitHubURL s) (gs "github.com") = true := by
  simp only [normalizeGitHubURL]
  cases h : goContains (normalizeCore s) (gs "github.com")
  · simp [h]
  · simp [h]

/-- A string that is already canonical (no surrounding white space, none
of the rewritten prefixes, no `.git` suffix, contains `github.com`) is a
fixed point of the canonicalisation. -/
theorem normalizeGitHubURL_fixed (y : GoStr)
    (h1 : goTrimSpace y = y) (h2 : goStartsWith y (gs "git://") = false)
    (h3 : goStartsWith y (gs "git+") = false)
    (h4 : goStartsWith y (gs "git@github.com:") = false)
    (h5 : goEndsWith y (gs ".git") = false)
    (hc : goContains y (gs "github.com") = true) :
    normalizeGitHubURL y = y := by
  have hcore : normalizeCore y = y := by
    simp only [normalizeCore, h1, h2, h3, h4, Bool.false_eq_true, if_false,
      goTrimSuffix_of_not y (gs ".git") h5]
  simp only [normalizeGitHubURL, hcore, hc, if_true]

/-- C7 (amended): the canonicalisation is idempotent on every input whose
canonical form is itself canonical: whenever the first application's
output keeps no surrounding white space, does not start with `git://`,
`git+` or `git@github.com:`, and does not end with `.git`, a second
application returns it unchanged.  (Degenerate inputs such as doubled
`.git` suffixes, doubled `git+` prefixes, or white space exposed behind a
stripped prefix escape one rewriting pass and are canonicalised further by
a second application.) -/
theorem C7_normalize_idempotent (s : GoStr)
    (h1 : goTrimSpace (normalizeGitHubURL s) = normalizeGitHubURL s)
    (h2 : goStartsWith (normalizeGitHubURL s) (gs "git://") = false)
    (h3 : goStartsWith (normalizeGitHubURL s) (gs "git+") = false)
    (h4 : goStartsWith (normalizeGitHubURL s) (gs "git@github.com:") = false)
    (h5 : goEndsWith (normalizeGitHubURL s) (gs ".git") = false) :
    normalizeGitHubURL (normalizeGitHubURL s) = normalizeGitHubURL s := by
  rcases normalizeGitHubURL_contains s with hc | hc
  · rw [hc]
    decide
  · exact normalizeGitHubURL_fixed _ h1 h2 h3 h4 h5 hc

/-- C7 witness: concrete instantiation of the amended theorem. -/
theorem C7_normalize_idempotent_witness :
    normalizeGitHubURL (normalizeGitHubURL (gs "https://github.com/org/repo")) =
      normalizeGitHubURL (gs "https://github.com/org/repo") :=
  C7_normalize_idempotent (gs "https://github.com/org/repo")
    (by decide) (by decide) (by decide) (by decide) (by decide)

/-- C7 counterexample: the canonicalisation strips only one `.git`
suffix per application, so on `github.com/a.git.git` the second
application produces a different output than the first, refuting
idempotence as claimed. -/
theorem C7_counterexample :
    normalizeGitHubURL (normalizeGitHubURL (gs "github.com/a.git.git")) ≠
      normalizeGitHubURL (gs "github.com/a.git.git") := by
  decide

/-! Repository traversal and the three checks
(`integrity.go`, the auth check, `exposure.go`; tables from the pattern
catalogue). -/

/-- `scanExtensions` from the pattern catalogue: file extensions eligible
for scanning. -/
def scanExtensions (ext : GoStr) : Bool :=
  [gs ".ts", gs ".tsx", gs ".js", gs ".jsx", gs ".mjs", gs ".py",
   gs ".json", gs ".yaml", gs ".yml"].contains ext

/-- `skipDirs` from the pattern catalogue: directory names skipped
entirely. -/
def skipDirs (d : GoStr) : Bool :=
  [gs "node_modules", gs "venv", gs ".venv", gs "__pycache__", gs ".git",
   gs "dist", gs "build", gs ".next", gs "coverage",
   gs ".pytest_cache"].contains d

/-- A regular file of a cloned tree: the names of the directories on its
path below the clone root, its base name, and its content.  A file list in
walk order abstracts the clone directory. -/
structure RepoFile where
  dirs : List GoStr
  name : GoStr
  content : GoStr

/-- `filepath.Walk` reaches a file unless some directory on its path is
deny-listed (those are skipped with `filepath.SkipDir`). -/
def walkVisits (f : RepoFile) : Bool := f.dirs.all (fun d => !(skipDirs d))

/-- Go `filepath.Ext`: the suffix of the base name starting at its final
dot, empty when the base name has no dot. -/
def fileExt (name : GoStr) : GoStr :=
  let tail := name.reverse.takeWhile (fun c => c ≠ '.')
  if tail.length = name.length then [] else '.' :: tail.reverse

/-- A compiled pattern used with `MatchString` and `FindString`
(regex evaluation is external library behaviour, hence abstract). -/
structure RegexFind where
  isMatch : GoStr → Bool
  find : GoStr → GoStr

/-- A compiled pattern used with `MatchString` and `FindAllString`. -/
structure RegexFindAll where
  isMatch : GoStr → Bool
  findAll : GoStr → List GoStr

/-- The process-wide pattern catalogue: each compiled regex of the source
is abstracted by its match/find behaviour; pattern lists keep their list
structure because the checks iterate them individually. -/
structure PatternCatalogue where
  tsMatches1 : GoStr → List (GoStr × GoStr)
  tsMatches2 : GoStr → List (GoStr × GoStr)
  tsMatches3 : GoStr → List (GoStr × GoStr)
  pyMatches1 : GoStr → List (GoStr × GoStr)
  pyMatches2 : GoStr → List (GoStr × GoStr)
  hiddenInstruction : RegexFindAll
  fileExfiltration : List RegexFind
  dataExfiltration : List RegexFind
  concealment : List RegexFind
  suspiciousParam : GoStr → Bool
  crossToolRef : RegexFind
  oauthAnyMatch : GoStr → Bool
  staticSecret : List RegexFindAll
  awsKey : GoStr → Bool
  ghPat : GoStr → Bool
  ghPat2 : GoStr → Bool
  privateKey : GoStr → Bool
  slackToken : GoStr → Bool
  genericKey : GoStr → Bool
  stdioAnyMatch : GoStr → Bool
  networkAnyMatch : GoStr → Bool
  bindAll : GoStr → Bool
  bindLocalhost : GoStr → Bool
  tlsAnyMatch : GoStr → Bool
  portExtract : GoStr → Option Int

/-- `extractTools` from `integrity.go`: dispatch on the file extension to
the TypeScript or Python extractor; JSON/YAML definitions are skipped in
the source ("less common, skip for MVP"). -/
def extractToolsOf (P : PatternCatalogue) (content ext : GoStr) :
    List ToolDefinition :=
  if [gs ".ts", gs ".tsx", gs ".js", gs ".jsx", gs ".mjs"].contains ext then
    extractTypeScriptTools (P.tsMatches1 content) (P.tsMatches2 content)
      (P.tsMatches3 content)
  else if ext = gs ".py" then
    extractPythonTools (P.pyMatches1 content) (P.pyMatches2 content)
  else []

/-- Decimal rendering of a natural number (Go `%d`). -/
def natDigits : Nat → Nat → GoStr
  | 0, _ => []
  | fuel + 1, n =>
    if n < 10 then [Char.ofNat (48 + n)]
    else natDigits fuel (n / 10) ++ [Char.ofNat (48 + n % 10)]

/-- Decimal rendering of a natural number (Go `%d`). -/
def natToDec (n : Nat) : GoStr := natDigits (n + 1) n

/-- A finding of the integrity check. -/
structure IntegrityFinding where
  ToolName : GoStr
  PatternMatched : GoStr
  Snippet : GoStr
  Severity : GoStr
deriving DecidableEq

/-- `IntegrityResult` from `integrity.go`. -/
structure IntegrityResult where
  Status : GoStr
  ToolsFound : Nat
  HiddenInstructions : List IntegrityFinding
  SuspiciousParameters : List IntegrityFinding
  LongDescriptions : List IntegrityFinding
  CrossToolReferences : List IntegrityFinding
deriving DecidableEq

/-- `scanToolForPoison` from `integrity.go`: appends the findings for one
tool to the running result.  Pattern loops that `break` after the first
matching pattern are modelled with `List.find?`. -/
def scanToolForPoison (P : PatternCatalogue) (tool : ToolDefinition)
    (r : IntegrityResult) : IntegrityResult :=
  let desc := tool.Description
  let r := if P.hiddenInstruction.isMatch desc then
      { r with HiddenInstructions := r.HiddenInstructions ++
          (P.hiddenInstruction.findAll desc).map (fun m =>
            ⟨tool.Name, gs "hidden_instruction_tag", truncate m 200,
              gs "critical"⟩) }
    else r
  let r := match P.fileExfiltration.find? (fun p => p.isMatch desc) with
    | some p => { r with HiddenInstructions := r.HiddenInstructions ++
        [⟨tool.Name, gs "file_exfiltration", truncate (p.find desc) 200,
          gs "critical"⟩] }
    | none => r
  let r := match P.dataExfiltration.find? (fun p => p.isMatch desc) with
    | some p => { r with HiddenInstructions := r.HiddenInstructions ++
        [⟨tool.Name, gs "data_exfiltration", truncate (p.find desc) 200,
          gs "critical"⟩] }
    | none => r
  let r := match P.concealment.find? (fun p => p.isMatch desc) with
    | some p => { r with HiddenInstructions := r.HiddenInstructions ++
        [⟨tool.Name, gs "concealment", truncate (p.find desc) 200,
          gs "critical"⟩] }
    | none => r
  let r := if desc.length > 500 then
      { r with LongDescriptions := r.LongDescriptions ++
        [⟨tool.Name, gs "long_description",
          gs "Description length: " ++ natToDec desc.length ++ gs " characters",
          gs "warning"⟩] }
    else r
  let r := match tool.Parameters with
    | some keys => { r with SuspiciousParameters := r.SuspiciousParameters ++
        (keys.filter P.suspiciousParam).map (fun k =>
          ⟨tool.Name, gs "suspicious_parameter", gs "Parameter: " ++ k,
            gs "warning"⟩) }
    | none => r
  let r := if P.crossToolRef.isMatch desc then
      { r with CrossToolReferences := r.CrossToolReferences ++
        [⟨tool.Name, gs "cross_tool_reference",
          truncate (P.crossToolRef.find desc) 200, gs "warning"⟩] }
    else r
  r

/-- The per-file step of `CheckIntegrity`'s walk: skip deny-listed
directories, skip files whose extension is not allow-listed, extract tools
from the rest. -/
def integrityStep (P : PatternCatalogue) (tools : List ToolDefinition)
    (f : RepoFile) : List ToolDefinition :=
  if walkVisits f && scanExtensions (fileExt f.name) then
    tools ++ extractToolsOf P f.content (fileExt f.name)
  else tools

/-- `CheckIntegrity` from `integrity.go`: walk and extract, record the
tool count, scan every tool for poisoning indicators, then derive the
status (critical on any hidden-instruction finding, else warning on any
other finding, else pass).  Returns the result and the extracted tools. -/
def CheckIntegrity (P : PatternCatalogue) (files : List RepoFile) :
    IntegrityResult × List ToolDefinition :=
  let tools := files.foldl (integrityStep P) []
  let r0 : IntegrityResult := ⟨gs "pass", tools.length, [], [], [], []⟩
  let r := tools.foldl (fun r t => scanToolForPoison P t r) r0
  let status := if r.HiddenInstructions.length > 0 then gs "critical"
    else if r.SuspiciousParameters.length > 0 ||
        r.LongDescriptions.length > 0 ||
        r.CrossToolReferences.length > 0 then gs "warning"
    else gs "pass"
  ({ r with Status := status }, tools)

/-- A committed-secret finding of the auth check. -/
structure SecretFinding where
  FilePath : GoStr
  SecretType : GoStr
  LineNumber : Nat
  Snippet : GoStr
deriving DecidableEq

/-- `AuthResult` from the auth check. -/
structure AuthResult where
  Status : GoStr
  Method : GoStr
  CommittedSecrets : List SecretFinding
  TokenRefresh : Option Bool
  ScopedPermissions : Option Bool
  EnvVarsReferenced : List GoStr
deriving DecidableEq

/-- Go `strings.Split(content, "\n")`. -/
def splitNewline : GoStr → List GoStr
  | [] => [[]]
  | c :: rest =>
    if c = '\n' then [] :: splitNewline rest
    else match splitNewline rest with
      | [] => [[c]]
      | h :: t => (c :: h) :: t

/-- `redactSecret`: keep the first 20 and last 10 characters of long
lines. -/
def redactSecret (line : GoStr) : GoStr :=
  if line.length > 50 then
    line.take 20 ++ gs "***REDACTED***" ++ line.drop (line.length - 10)
  else gs "***REDACTED***"

/-- `findCommittedSecrets`: line-by-line scan of one file's content for
the six committed-secret signatures. -/
def findCommittedSecrets (P : PatternCatalogue) (content filePath : GoStr) :
    List SecretFinding :=
  (splitNewline content).enum.foldl (fun acc p =>
    let lineNum := p.1
    let line := p.2
    let acc := if P.awsKey line then acc ++
        [⟨filePath, gs "aws_key", lineNum + 1, redactSecret line⟩] else acc
    let acc := if P.ghPat line || P.ghPat2 line then acc ++
        [⟨filePath, gs "github_pat", lineNum + 1, redactSecret line⟩] else acc
    let acc := if P.privateKey line then acc ++
        [⟨filePath, gs "private_key", lineNum + 1,
          gs "Private key detected"⟩] else acc
    let acc := if P.slackToken line then acc ++
        [⟨filePath, gs "slack_token", lineNum + 1, redactSecret line⟩] else acc
    let acc := if P.genericKey line then acc ++
        [⟨filePath, gs "generic_key", lineNum + 1, redactSecret line⟩] else acc
    acc) []

/-- `uniqueStrings`: first-occurrence deduplication. -/
def uniqueStrings (l : List GoStr) : List GoStr :=
  l.foldl (fun acc item => if acc.contains item then acc else acc ++ [item]) []

/-- The path of a file relative to the clone root (the source computes it
by trimming the clone-root prefix from the walk path). -/
def relPath (f : RepoFile) : GoStr := (f.dirs.map (· ++ gs "/")).flatten ++ f.name

/-- The env-var references one file contributes: for each matching
static-secret pattern, the `FindAllString` matches containing `API_KEY` or
`TOKEN`. -/
def staticEnvVars (P : PatternCatalogue) (c : GoStr) : List GoStr :=
  ((P.staticSecret.filter (fun p => p.isMatch c)).map (fun p =>
    (p.findAll c).filter (fun m =>
      goContains m (gs "API_KEY") || goContains m (gs "TOKEN")))).flatten

/-- The synthetic `missing_gitignore_entry` finding: emitted for files
whose path ends in `.gitignore` when the content does not mention `.env`
(the struct's line number stays at its zero value). -/
def gitignoreFinding (f : RepoFile) : List SecretFinding :=
  if goEndsWith f.name (gs ".gitignore") && !(goContains f.content (gs ".env"))
  then [⟨relPath f, gs "missing_gitignore_entry", 0,
    gs ".env file not excluded in .gitignore"⟩]
  else []

/-- The walk accumulators of the auth check. -/
structure AuthAccum where
  oauthCount : Nat
  staticCount : Nat
  secrets : List SecretFinding
  envVars : List GoStr

/-- The per-file step of the auth check's walk.  Note: unlike the other
two checks it reads every file the walk reaches, with no extension
filter.  `oauthCount` rises by at most one per file (the source loop
breaks at the first matching OAuth pattern) while `staticCount` rises
once per matching static-secret pattern (that loop has no break). -/
def authStep (P : PatternCatalogue) (acc : AuthAccum) (f : RepoFile) :
    AuthAccum :=
  if walkVisits f then
    { oauthCount := acc.oauthCount +
        (if P.oauthAnyMatch f.content then 1 else 0)
      staticCount := acc.staticCount +
        P.staticSecret.countP (fun p => p.isMatch f.content)
      secrets := acc.secrets ++
        findCommittedSecrets P f.content (relPath f) ++ gitignoreFinding f
      envVars := acc.envVars ++ staticEnvVars P f.content }
  else acc

/-- The folded accumulators of the auth check over a whole clone. -/
def authAccum (P : PatternCatalogue) (files : List RepoFile) : AuthAccum :=
  files.foldl (authStep P) ⟨0, 0, [], []⟩

/-- The classification stage of `CheckAuth`: deduplicate env vars,
classify the method (`oauth2` at two or more OAuth files, with token
refresh at three or more and scoped permissions assumed; else
`static_key` on any static-secret match; else `none`), then derive the
status. -/
def classifyAuth (acc : AuthAccum) : AuthResult :=
  let base : AuthResult :=
    { Status := gs "pass"
      Method := gs "unknown"
      CommittedSecrets := acc.secrets
      TokenRefresh := none
      ScopedPermissions := none
      EnvVarsReferenced := uniqueStrings acc.envVars }
  let r := if 2 ≤ acc.oauthCount then
      { base with
        Method := gs "oauth2"
        TokenRefresh := some (decide (3 ≤ acc.oauthCount))
        ScopedPermissions := some true }
    else if 0 < acc.staticCount then { base with Method := gs "static_key" }
    else { base with Method := gs "none" }
  let status := if 0 < r.CommittedSecrets.length || r.Method = gs "none" then
      gs "critical"
    else if r.Method = gs "static_key" then gs "warning"
    else if r.Method = gs "oauth2" then
      match r.TokenRefresh with
      | some tr => if tr then gs "pass" else gs "warning"
      | none => gs "pass"
    else r.Status
  { r with Status := status }

/-- `CheckAuth`: walk every reachable file (no extension filter) and
classify the accumulators. -/
def CheckAuth (P : PatternCatalogue) (files : List RepoFile) : AuthResult :=
  classifyAuth (authAccum P files)

/-- `ExposureResult` from `exposure.go`. -/
structure ExposureResult where
  Status : GoStr
  Transport : GoStr
  BindAddress : GoStr
  TLSConfigured : Option Bool
  DefaultPort : Option Int
deriving DecidableEq

/-- The walk accumulators of the exposure check. -/
structure ExposureAccum where
  stdioCount : Nat
  networkCount : Nat
  hasBindAll : Bool
  hasBindLocalhost : Bool
  hasTLS : Bool
  detectedPort : Option Int

/-- The per-file step of the exposure check's walk: deny-listed
directories and non-allow-listed extensions are skipped; each remaining
file bumps the stdio/network counters at most once (the pattern loops
break at the first match), ORs the bind/TLS booleans, and overwrites the
detected port when the port pattern yields one. -/
def exposureStep (P : PatternCatalogue) (acc : ExposureAccum) (f : RepoFile) :
    ExposureAccum :=
  if walkVisits f && scanExtensions (fileExt f.name) then
    { stdioCount := acc.stdioCount +
        (if P.stdioAnyMatch f.content then 1 else 0)
      networkCount := acc.networkCount +
        (if P.networkAnyMatch f.content then 1 else 0)
      hasBindAll := acc.hasBindAll || P.bindAll f.content
      hasBindLocalhost := acc.hasBindLocalhost || P.bindLocalhost f.content
      hasTLS := acc.hasTLS || P.tlsAnyMatch f.content
      detectedPort := match P.portExtract f.content with
        | some p => some p
        | none => acc.detectedPort }
  else acc

/-- The folded accumulators of the exposure check over a whole clone. -/
def exposureAccum (P : PatternCatalogue) (files : List RepoFile) :
    ExposureAccum :=
  files.foldl (exposureStep P) ⟨0, 0, false, false, false, none⟩

/-- The classification stage of `CheckExposure`: the transport is `http`
exactly when network indicators outnumber stdio ones, else `stdio` when
any stdio indicator was seen, else `unknown`; the bind/TLS/port fields
are populated only for network transports; the status follows the
bind-all/TLS matrix for network transports and is `pass` otherwise. -/
def classifyExposure (acc : ExposureAccum) : ExposureResult :=
  let transport := if acc.networkCount > acc.stdioCount then
      (if acc.networkCount > 0 then gs "http" else gs "unknown")
    else if acc.stdioCount > 0 then gs "stdio"
    else gs "unknown"
  let isNet := transport = gs "http" ∨ transport = gs "sse" ∨
    transport = gs "websocket"
  let bindAddress := if isNet then
      (if acc.hasBindAll then gs "0.0.0.0"
       else if acc.hasBindLocalhost then gs "127.0.0.1" else [])
    else []
  let tls : Option Bool := if isNet then some acc.hasTLS else none
  let port : Option Int := if isNet then acc.detectedPort else none
  let status := if transport = gs "stdio" then gs "pass"
    else if isNet then
      (if acc.hasBindAll && !acc.hasTLS then gs "critical"
       else if acc.hasBindAll || !acc.hasTLS then gs "warning"
       else gs "pass")
    else gs "pass"
  ⟨status, transport, bindAddress, tls, port⟩

/-- `CheckExposure` from `exposure.go`: walk the allow-listed files and
classify the accumulators. -/
def CheckExposure (P : PatternCatalogue) (files : List RepoFile) :
    ExposureResult :=
  classifyExposure (exposureAccum P files)

/-- The stdio/network counters of the exposure walk count the reachable,
allow-listed files on which the respective pattern family matched. -/
theorem exposureAccum_counts (P : PatternCatalogue) :
    ∀ (files : List RepoFile) (acc : ExposureAccum),
    (files.foldl (exposureStep P) acc).stdioCount =
      acc.stdioCount + files.countP
        (fun f => walkVisits f && scanExtensions (fileExt f.name) &&
          P.stdioAnyMatch f.content) ∧
    (files.foldl (exposureStep P) acc).networkCount =
      acc.networkCount + files.countP
        (fun f => walkVisits f && scanExtensions (fileExt f.name) &&
          P.networkAnyMatch f.content)
  | [], acc => by simp
  | f :: fs, acc => by
    obtain ⟨ih1, ih2⟩ := exposureAccum_counts P fs (exposureStep P acc f)
    rw [List.foldl_cons]
    refine ⟨?_, ?_⟩
    · have hstep : (exposureStep P acc f).stdioCount = acc.stdioCount +
          (if walkVisits f && scanExtensions (fileExt f.name) &&
            P.stdioAnyMatch f.content then 1 else 0) := by
        cases h1 : walkVisits f <;>
          cases h2 : scanExtensions (fileExt f.name) <;>
          cases h3 : P.stdioAnyMatch f.content <;>
          simp [exposureStep, h1, h2, h3]
      rw [ih1, hstep, List.countP_cons]
      omega
    · have hstep : (exposureStep P acc f).networkCount = acc.networkCount +
          (if walkVisits f && scanExtensions (fileExt f.name) &&
            P.networkAnyMatch f.content then 1 else 0) := by
        cases h1 : walkVisits f <;>
          cases h2 : scanExtensions (fileExt f.name) <;>
          cases h3 : P.networkAnyMatch f.content <;>
          simp [exposureStep, h1, h2, h3]
      rw [ih2, hstep, List.countP_cons]
      omega

/-- Classification matrix of the exposure check as a function of the
accumulators. -/
theorem classifyExposure_spec (acc : ExposureAccum) :
    ((classifyExposure acc).Transport = gs "http" ↔
      acc.stdioCount < acc.networkCount) ∧
    ((classifyExposure acc).Transport = gs "stdio" ↔
      (acc.networkCount ≤ acc.stdioCount ∧ 0 < acc.stdioCount)) ∧
    ((classifyExposure acc).Transport = gs "unknown" ↔
      (acc.networkCount ≤ acc.stdioCount ∧ acc.stdioCount = 0)) ∧
    (acc.stdioCount < acc.networkCount →
      ((classifyExposure acc).Status = gs "critical" ↔
        (acc.hasBindAll = true ∧ acc.hasTLS = false)) ∧
      ((classifyExposure acc).Status = gs "warning" ↔
        ((acc.hasBindAll = true ∧ acc.hasTLS = true) ∨
         (acc.hasBindAll = false ∧ acc.hasTLS = false))) ∧
      ((classifyExposure acc).Status = gs "pass" ↔
        (acc.hasBindAll = false ∧ acc.hasTLS = true))) ∧
    (acc.networkCount ≤ acc.stdioCount →
      (classifyExposure acc).Status = gs "pass") := by
  obtain ⟨s, n, ba, bl, tl, dp⟩ := acc
  have e1 : ¬ (gs "stdio" = gs "http") := by decide
  have e2 : ¬ (gs "unknown" = gs "http") := by decide
  have e3 : ¬ (gs "http" = gs "stdio") := by decide
  have e4 : ¬ (gs "unknown" = gs "stdio") := by decide
  have e5 : ¬ (gs "http" = gs "unknown") := by decide
  have e6 : ¬ (gs "stdio" = gs "unknown") := by decide
  have e7 : ¬ (gs "http" = gs "sse") := by decide
  have e8 : ¬ (gs "http" = gs "websocket") := by decide
  have e9 : ¬ (gs "unknown" = gs "sse") := by decide
  have e10 : ¬ (gs "unknown" = gs "websocket") := by decide
  have e11 : ¬ (gs "stdio" = gs "sse") := by decide
  have e12 : ¬ (gs "stdio" = gs "websocket") := by decide
  by_cases hns : s < n
  · have hn0 : n > 0 := by omega
    cases ba <;> cases tl <;>
      simp [classifyExposure, hns, hn0, e3, e5, e7, e8] <;>
      first | decide | omega |
        (refine ⟨by decide, by omega⟩) | (refine ⟨by omega, by decide⟩)
  · by_cases hs : 0 < s
    · simp [classifyExposure, hns, hs, e1, e6, e11, e12] <;>
        first | decide | omega |
          (refine ⟨by decide, by omega⟩) | (refine ⟨by omega, by decide⟩)
    · simp [classifyExposure, hns, hs, e2, e4, e9, e10] <;>
        first | decide | omega |
          (refine ⟨by decide, by omega⟩) | (refine ⟨by omega, by decide⟩)

/-- A pattern catalogue in which no pattern matches anything: used to
instantiate theorems at concrete inputs independently of regex
behaviour. -/
def trivialCatalogue : PatternCatalogue where
  tsMatches1 := fun _ => []
  tsMatches2 := fun _ => []
  tsMatches3 := fun _ => []
  pyMatches1 := fun _ => []
  pyMatches2 := fun _ => []
  hiddenInstruction := ⟨fun _ => false, fun _ => []⟩
  fileExfiltration := []
  dataExfiltration := []
  concealment := []
  suspiciousParam := fun _ => false
  crossToolRef := ⟨fun _ => false, fun _ => []⟩
  oauthAnyMatch := fun _ => false
  staticSecret := []
  awsKey := fun _ => false
  ghPat := fun _ => false
  ghPat2 := fun _ => false
  privateKey := fun _ => false
  slackToken := fun _ => false
  genericKey := fun _ => false
  stdioAnyMatch := fun _ => false
  networkAnyMatch := fun _ => false
  bindAll := fun _ => false
  bindLocalhost := fun _ => false
  tlsAnyMatch := fun _ => false
  portExtract := fun _ => none

/-- C6: the exposure check reports transport `http` exactly when the
count of reachable allow-listed files with network-transport matches
exceeds the count of those with stdio matches, else `stdio` when the
stdio count is positive, else `unknown`; the status is `pass` for stdio
and unknown transports, and for a network transport it is `critical`
with a bind-all match and no TLS match, `warning` when exactly one of
bind-all / absence-of-TLS holds, and `pass` with no bind-all match and a
TLS match. -/
theorem C6_exposure_classification (P : PatternCatalogue)
    (files : List RepoFile) :
    (exposureAccum P files).stdioCount = files.countP
      (fun f => walkVisits f && scanExtensions (fileExt f.name) &&
        P.stdioAnyMatch f.content) ∧
    (exposureAccum P files).networkCount = files.countP
      (fun f => walkVisits f && scanExtensions (fileExt f.name) &&
        P.networkAnyMatch f.content) ∧
    ((CheckExposure P files).Transport = gs "http" ↔
      (exposureAccum P files).stdioCount <
        (exposureAccum P files).networkCount) ∧
    ((CheckExposure P files).Transport = gs "stdio" ↔
      ((exposureAccum P files).networkCount ≤
          (exposureAccum P files).stdioCount ∧
        0 < (exposureAccum P files).stdioCount)) ∧
    ((CheckExposure P files).Transport = gs "unknown" ↔
      ((exposureAccum P files).networkCount ≤
          (exposureAccum P files).stdioCount ∧
        (exposureAccum P files).stdioCount = 0)) ∧
    ((exposureAccum P files).stdioCount <
        (exposureAccum P files).networkCount →
      ((CheckExposure P files).Status = gs "critical" ↔
        ((exposureAccum P files).hasBindAll = true ∧
          (exposureAccum P files).hasTLS = false)) ∧
      ((CheckExposure P files).Status = gs "warning" ↔
        (((exposureAccum P files).hasBindAll = true ∧
            (exposureAccum P files).hasTLS = true) ∨
         ((exposureAccum P files).hasBindAll = false ∧
            (exposureAccum P files).hasTLS = false))) ∧
      ((CheckExposure P files).Status = gs "pass" ↔
        ((exposureAccum P files).hasBindAll = false ∧
          (exposureAccum P files).hasTLS = true))) ∧
    ((exposureAccum P files).networkCount ≤
        (exposureAccum P files).stdioCount →
      (CheckExposure P files).Status = gs "pass") := by
  obtain ⟨h1, h2⟩ := exposureAccum_counts P files ⟨0, 0, false, false, false, none⟩
  obtain ⟨c1, c2, c3, c4, c5⟩ := classifyExposure_spec (exposureAccum P files)
  exact ⟨by simpa [exposureAccum] using h1, by simpa [exposureAccum] using h2,
    c1, c2, c3, c4, c5⟩

/-- C6 witness: concrete instantiation on a single network-indicating
file with a bind-all match and no TLS match. -/
theorem C6_exposure_classification_witness :
    (CheckExposure
      { trivialCatalogue with
        networkAnyMatch := fun _ => true
        bindAll := fun _ => true }
      [⟨[], gs "server.ts", gs "x"⟩]).Status = gs "critical" := by
  have h := (C6_exposure_classification
    { trivialCatalogue with
      networkAnyMatch := fun _ => true
      bindAll := fun _ => true }
    [⟨[], gs "server.ts", gs "x"⟩]).2.2.2.2.2.1 (by decide)
  exact h.1.mpr (by decide)

/-- The auth walk accumulators: OAuth files are counted once each,
static-secret patterns once per matching pattern per file, and the
committed-secret findings (including synthetic `.gitignore` ones) are
concatenated in walk order.  Only deny-listed directories are excluded;
there is no extension filter. -/
theorem authAccum_counts (P : PatternCatalogue) :
    ∀ (files : List RepoFile) (acc : AuthAccum),
    (files.foldl (authStep P) acc).oauthCount =
      acc.oauthCount + files.countP
        (fun f => walkVisits f && P.oauthAnyMatch f.content) ∧
    (files.foldl (authStep P) acc).staticCount =
      acc.staticCount + (files.map (fun f => if walkVisits f then
        P.staticSecret.countP (fun p => p.isMatch f.content) else 0)).sum ∧
    (files.foldl (authStep P) acc).secrets =
      acc.secrets ++ (files.map (fun f => if walkVisits f then
        findCommittedSecrets P f.content (relPath f) ++ gitignoreFinding f
        else [])).flatten
  | [], acc => by simp
  | f :: fs, acc => by
    obtain ⟨ih1, ih2, ih3⟩ := authAccum_counts P fs (authStep P acc f)
    rw [List.foldl_cons]
    refine ⟨?_, ?_, ?_⟩
    · have hstep : (authStep P acc f).oauthCount = acc.oauthCount +
          (if walkVisits f && P.oauthAnyMatch f.content then 1 else 0) := by
        cases h1 : walkVisits f <;> cases h2 : P.oauthAnyMatch f.content <;>
          simp [authStep, h1, h2]
      rw [ih1, hstep, List.countP_cons]
      omega
    · have hstep : (authStep P acc f).staticCount = acc.staticCount +
          (if walkVisits f then
            P.staticSecret.countP (fun p => p.isMatch f.content) else 0) := by
        cases h1 : walkVisits f <;> simp [authStep, h1]
      rw [ih2, hstep, List.map_cons, List.sum_cons]
      omega
    · have hstep : (authStep P acc f).secrets = acc.secrets ++
          (if walkVisits f then
            findCommittedSecrets P f.content (relPath f) ++ gitignoreFinding f
            else []) := by
        cases h1 : walkVisits f <;> simp [authStep, h1]
      rw [ih3, hstep, List.map_cons, List.flatten_cons, List.append_assoc]

/-- Classification matrix of the auth check as a function of the
accumulators. -/
theorem classifyAuth_spec (acc : AuthAccum) :
    ((classifyAuth acc).Method = gs "oauth2" ↔ 2 ≤ acc.oauthCount) ∧
    (2 ≤ acc.oauthCount →
      (classifyAuth acc).TokenRefresh = some (decide (3 ≤ acc.oauthCount)) ∧
      (classifyAuth acc).ScopedPermissions = some true) ∧
    ((classifyAuth acc).Method = gs "static_key" ↔
      (acc.oauthCount < 2 ∧ 0 < acc.staticCount)) ∧
    ((classifyAuth acc).Method = gs "none" ↔
      (acc.oauthCount < 2 ∧ acc.staticCount = 0)) ∧
    (classifyAuth acc).CommittedSecrets = acc.secrets ∧
    ((classifyAuth acc).Status = gs "critical" ↔
      (acc.secrets ≠ [] ∨ (classifyAuth acc).Method = gs "none")) ∧
    ((classifyAuth acc).Status = gs "warning" ↔
      (acc.secrets = [] ∧
        ((classifyAuth acc).Method = gs "static_key" ∨
         ((classifyAuth acc).Method = gs "oauth2" ∧
           (classifyAuth acc).TokenRefresh = some false)))) ∧
    ((classifyAuth acc).Status = gs "pass" ↔
      (acc.secrets = [] ∧ (classifyAuth acc).Method = gs "oauth2" ∧
        (classifyAuth acc).TokenRefresh ≠ some false)) := by
  obtain ⟨oc, sc, secrets, envs⟩ := acc
  have e1 : ¬ (gs "oauth2" = gs "none") := by decide
  have e2 : ¬ (gs "oauth2" = gs "static_key") := by decide
  have e3 : ¬ (gs "static_key" = gs "none") := by decide
  have e4 : ¬ (gs "static_key" = gs "oauth2") := by decide
  have e5 : ¬ (gs "none" = gs "oauth2") := by decide
  have e6 : ¬ (gs "none" = gs "static_key") := by decide
  have e7 : ¬ (gs "critical" = gs "warning") := by decide
  have e8 : ¬ (gs "critical" = gs "pass") := by decide
  have e9 : ¬ (gs "warning" = gs "pass") := by decide
  have e10 : ¬ (gs "warning" = gs "critical") := by decide
  have e11 : ¬ (gs "pass" = gs "critical") := by decide
  have e12 : ¬ (gs "pass" = gs "warning") := by decide
  by_cases h2 : 2 ≤ oc
  · by_cases hsec : secrets = []
    · by_cases h3 : 3 ≤ oc <;>
        simp [classifyAuth, h2, hsec, h3, e1, e2, e7, e8, e9, e10, e11, e12] <;>
        first | omega | assumption
    · have hlen : 0 < secrets.length := by
        cases secrets
        · exact absurd rfl hsec
        · simp
      by_cases h3 : 3 ≤ oc <;>
        simp [classifyAuth, h2, hsec, h3, hlen, e1, e2, e7, e8, e9, e10, e11, e12] <;>
        first | omega | assumption
  · by_cases hs : 0 < sc
    · by_cases hsec : secrets = []
      · simp [classifyAuth, h2, hs, hsec, e3, e4, e7, e8, e9, e10, e11, e12] <;>
          first | omega | assumption
      · have hlen : 0 < secrets.length := by
          cases secrets
          · exact absurd rfl hsec
          · simp
        simp [classifyAuth, h2, hs, hsec, hlen, e3, e4, e7, e8, e9, e10, e11, e12] <;>
          first | omega | assumption
    · by_cases hsec : secrets = []
      · simp [classifyAuth, h2, hs, hsec, e5, e6, e7, e8, e9, e10, e11, e12] <;>
          first | omega | assumption
      · have hlen : 0 < secrets.length := by
          cases secrets
          · exact absurd rfl hsec
          · simp
        simp [classifyAuth, h2, hs, hsec, hlen, e5, e6, e7, e8, e9, e10, e11, e12] <;>
          first | omega | assumption

/-- C5: the auth check classifies method `oauth2` when at least two
reachable files match OAuth patterns (token refresh set exactly when at
least three match, scoped permissions assumed true), else `static_key`
when any static-secret pattern matched, else `none`; its status is
`critical` exactly when a committed secret (the synthetic
`missing_gitignore_entry` finding included, since it is appended to the
same list) is recorded or the method is `none`, else `warning` exactly
for `static_key` or `oauth2` without token refresh, else `pass`. -/
theorem C5_auth_classification (P : PatternCatalogue)
    (files : List RepoFile) :
    (authAccum P files).oauthCount = files.countP
      (fun f => walkVisits f && P.oauthAnyMatch f.content) ∧
    (authAccum P files).staticCount = (files.map (fun f => if walkVisits f
      then P.staticSecret.countP (fun p => p.isMatch f.content) else 0)).sum ∧
    (authAccum P files).secrets = (files.map (fun f => if walkVisits f then
      findCommittedSecrets P f.content (relPath f) ++ gitignoreFinding f
      else [])).flatten ∧
    ((CheckAuth P files).Method = gs "oauth2" ↔
      2 ≤ (authAccum P files).oauthCount) ∧
    (2 ≤ (authAccum P files).oauthCount →
      (CheckAuth P files).TokenRefresh =
        some (decide (3 ≤ (authAccum P files).oauthCount)) ∧
      (CheckAuth P files).ScopedPermissions = some true) ∧
    ((CheckAuth P files).Method = gs "static_key" ↔
      ((authAccum P files).oauthCount < 2 ∧
        0 < (authAccum P files).staticCount)) ∧
    ((CheckAuth P files).Method = gs "none" ↔
      ((authAccum P files).oauthCount < 2 ∧
        (authAccum P files).staticCount = 0)) ∧
    (CheckAuth P files).CommittedSecrets = (authAccum P files).secrets ∧
    ((CheckAuth P files).Status = gs "critical" ↔
      ((authAccum P files).secrets ≠ [] ∨
        (CheckAuth P files).Method = gs "none")) ∧
    ((CheckAuth P files).Status = gs "warning" ↔
      ((authAccum P files).secrets = [] ∧
        ((CheckAuth P files).Method = gs "static_key" ∨
         ((CheckAuth P files).Method = gs "oauth2" ∧
           (CheckAuth P files).TokenRefresh = some false)))) ∧
    ((CheckAuth P files).Status = gs "pass" ↔
      ((authAccum P files).secrets = [] ∧
        (CheckAuth P files).Method = gs "oauth2" ∧
        (CheckAuth P files).TokenRefresh ≠ some false)) := by
  obtain ⟨h1, h2, h3⟩ := authAccum_counts P files ⟨0, 0, [], []⟩
  obtain ⟨c1, c2, c3, c4, c5, c6, c7, c8⟩ :=
    classifyAuth_spec (authAccum P files)
  exact ⟨by simpa [authAccum] using h1, by simpa [authAccum] using h2,
    by simpa [authAccum] using h3, c1, c2, c3, c4, c5, c6, c7, c8⟩

/-- C5 witness: two OAuth-matching files and no secrets give method
`oauth2` without token refresh and status `warning`. -/
theorem C5_auth_classification_witness :
    (CheckAuth { trivialCatalogue with oauthAnyMatch := fun _ => true }
      [⟨[], gs "a.ts", gs "x"⟩, ⟨[], gs "b.ts", gs "y"⟩]).Method =
      gs "oauth2" ∧
    (CheckAuth { trivialCatalogue with oauthAnyMatch := fun _ => true }
      [⟨[], gs "a.ts", gs "x"⟩, ⟨[], gs "b.ts", gs "y"⟩]).Status =
      gs "warning" := by
  have h := C5_auth_classification
    { trivialCatalogue with oauthAnyMatch := fun _ => true }
    [⟨[], gs "a.ts", gs "x"⟩, ⟨[], gs "b.ts", gs "y"⟩]
  refine ⟨h.2.2.2.1.mpr (by decide), ?_⟩
  refine (h.2.2.2.2.2.2.2.2.2.1).mpr ⟨by decide, Or.inr ⟨?_, ?_⟩⟩
  · exact h.2.2.2.1.mpr (by decide)
  · have := (h.2.2.2.2.1 (by decide)).1
    rw [this]
    decide

/-- Folding over a list with an element on which the step function is the
identity gives the same result as folding without that element. -/
theorem foldl_skip_middle {α β : Type} (g : β → α → β) (x : α)
    (hx : ∀ b, g b x = b) (xs ys : List α) (init : β) :
    (xs ++ x :: ys).foldl g init = (xs ++ ys).foldl g init := by
  simp [List.foldl_append, List.foldl_cons, hx]

/-- C4 (amended): the integrity and exposure checks derive their results
only from files outside deny-listed directories whose extension is on the
allow-list (removing any other file from the walk leaves their entire
output unchanged); the auth check applies only the deny-list, reading
every remaining file regardless of extension, so a non-allow-listed file
(a `.gitignore`, a README) can change its output. -/
theorem C4_traversal_policy (P : PatternCatalogue) (xs ys : List RepoFile)
    (f : RepoFile) :
    (walkVisits f = false ∨ scanExtensions (fileExt f.name) = false →
      CheckIntegrity P (xs ++ f :: ys) = CheckIntegrity P (xs ++ ys)) ∧
    (walkVisits f = false ∨ scanExtensions (fileExt f.name) = false →
      CheckExposure P (xs ++ f :: ys) = CheckExposure P (xs ++ ys)) ∧
    (walkVisits f = false →
      CheckAuth P (xs ++ f :: ys) = CheckAuth P (xs ++ ys)) := by
  refine ⟨fun h => ?_, fun h => ?_, fun h => ?_⟩
  · have hand : (walkVisits f && scanExtensions (fileExt f.name)) = false := by
      rcases h with h | h <;> simp [h]
    have hskip : ∀ b, integrityStep P b f = b := by
      intro b; simp [integrityStep, hand]
    simp only [CheckIntegrity, foldl_skip_middle (integrityStep P) f hskip]
  · have hand : (walkVisits f && scanExtensions (fileExt f.name)) = false := by
      rcases h with h | h <;> simp [h]
    have hskip : ∀ b, exposureStep P b f = b := by
      intro b; simp [exposureStep, hand]
    simp only [CheckExposure, exposureAccum,
      foldl_skip_middle (exposureStep P) f hskip]
  · have hskip : ∀ b, authStep P b f = b := by
      intro b; simp [authStep, h]
    simp only [CheckAuth, authAccum, foldl_skip_middle (authStep P) f hskip]

/-- C4 witness: concrete instantiation of the amended theorem on a
deny-listed file. -/
theorem C4_traversal_policy_witness :
    CheckAuth trivialCatalogue
      [⟨[gs "node_modules"], gs "a.ts", gs "x"⟩] =
      CheckAuth trivialCatalogue [] :=
  (C4_traversal_policy trivialCatalogue [] []
    ⟨[gs "node_modules"], gs "a.ts", gs "x"⟩).2.2 (by decide)

/-- C4 counterexample: a `.gitignore` file has a non-allow-listed
extension, is skipped by the integrity and exposure checks, yet changes
the auth check's output (it produces a `missing_gitignore_entry`
committed-secret finding), refuting the claim that all three checks read
only allow-listed files. -/
theorem C4_counterexample :
    scanExtensions (fileExt (gs ".gitignore")) = false ∧
    walkVisits ⟨[], gs ".gitignore", []⟩ = true ∧
    CheckAuth trivialCatalogue [⟨[], gs ".gitignore", []⟩] ≠
      CheckAuth trivialCatalogue [] := by
  refine ⟨by decide, by decide, by decide⟩

/-! Tool persistence and mutation detection (`database/tools.go`,
`storeScanResults` and `detectMutations` in `scanner.go`), modelled for a
single server as an in-memory row table. -/

/-- A `tool_definitions` row (`database/tools.go`); timestamps are
irrelevant to the embedded logic and omitted. -/
structure DBToolDefinition where
  ToolName : GoStr
  Description : Option GoStr
  Parameters : Option (List GoStr)
  ContentHash : GoStr
deriving DecidableEq

/-- The row `storeScanResults` builds from an extracted tool. -/
def toolRow (t : ToolDefinition) : DBToolDefinition :=
  ⟨t.Name, some t.Description, t.Parameters, t.Hash⟩

/-- `InsertToolDefinitions`: insert each tool's row;
`ON CONFLICT (server_id, tool_name, content_hash)` only bumps
`last_seen`, leaving the stored row unchanged. -/
def insertToolDefinitions (table : List DBToolDefinition)
    (tools : List ToolDefinition) : List DBToolDefinition :=
  tools.foldl (fun tb t =>
    if tb.any (fun row =>
        decide (row.ToolName = t.Name ∧ row.ContentHash = t.Hash)) then tb
    else tb ++ [toolRow t]) table

/-- `GetToolDefinitionsForServer`: every row of the server, ordered by
tool name (`ORDER BY tool_name`; rows with equal names keep insertion
order, one of the orders the unconstrained SQL tie-break permits). -/
def getToolDefinitionsForServer (table : List DBToolDefinition) :
    List DBToolDefinition :=
  sortLe (fun a b => !(goStrLt b.ToolName a.ToolName)) table

/-- A `mutations` row. -/
structure Mutation where
  ToolName : GoStr
  OldHash : GoStr
  NewHash : GoStr
  OldDescription : Option GoStr
  NewDescription : Option GoStr
  OldParameters : Option (List GoStr)
  NewParameters : Option (List GoStr)
  Severity : GoStr
  SeverityReason : Option GoStr
deriving DecidableEq

/-- Insert-or-overwrite into an association list: the model of writing to
a Go map (`prevMap[name] = tool`, later writes win). -/
def mapUpsert {α : Type} (m : List (GoStr × α)) (k : GoStr) (v : α) :
    List (GoStr × α) :=
  if m.any (fun p => decide (p.1 = k)) then
    m.map (fun p => if p.1 = k then (k, v) else p)
  else m ++ [(k, v)]

/-- `assessMutationSeverity` from `scanner.go`: hidden-instruction tags
in the new description are critical, newly appearing file-exfiltration
patterns are critical, growth by more than 200 characters is a warning,
anything else is informational; an absent description on either side is
informational. -/
def assessMutationSeverity (P : PatternCatalogue)
    (oldDesc newDesc : Option GoStr) : GoStr × GoStr :=
  match oldDesc, newDesc with
  | some od, some nd =>
    if P.hiddenInstruction.isMatch nd then
      (gs "critical", gs "New description contains hidden instruction tags")
    else
      match P.fileExfiltration.find?
          (fun p => p.isMatch nd && !(p.isMatch od)) with
      | some _ =>
        (gs "critical", gs "New description contains file exfiltration patterns")
      | none =>
        if od.length + 200 < nd.length then
          (gs "warning", gs "Description grew by " ++
            natToDec (nd.length - od.length) ++ gs " characters")
        else (gs "info", gs "Minor description change")
  | _, _ => (gs "info", gs "Description changed")

/-- `detectMutations` from `scanner.go`: nothing when the fetched tool
list is empty; otherwise index both lists by name and emit removed /
modified mutations over the fetched map, then added mutations over the
current map.  (Go map iteration order is unspecified; the model iterates
in first-insertion order, and the spec declares emission order not
observable.) -/
def detectMutations (P : PatternCatalogue)
    (previousTools : List DBToolDefinition)
    (currentTools : List ToolDefinition) : List Mutation :=
  if previousTools.length = 0 then []
  else
    let prevMap := previousTools.foldl
      (fun m row => mapUpsert m row.ToolName row) []
    let currMap := currentTools.foldl
      (fun m t => mapUpsert m t.Name t) []
    let removedModified := prevMap.foldl (fun muts p =>
      match currMap.find? (fun q => decide (q.1 = p.1)) with
      | none => muts ++ [⟨p.1, p.2.ContentHash, gs "(removed)",
          p.2.Description, none, none, none, gs "warning",
          some (gs "Tool was removed")⟩]
      | some q =>
        if p.2.ContentHash ≠ q.2.Hash then
          muts ++ [⟨p.1, p.2.ContentHash, q.2.Hash, p.2.Description,
            some q.2.Description, p.2.Parameters, q.2.Parameters,
            (assessMutationSeverity P p.2.Description
              (some q.2.Description)).1,
            some (assessMutationSeverity P p.2.Description
              (some q.2.Description)).2⟩]
        else muts) []
    let added := currMap.foldl (fun muts q =>
      match prevMap.find? (fun p => decide (p.1 = q.1)) with
      | none => muts ++ [⟨q.1, gs "(none)", q.2.Hash, none,
          some q.2.Description, none, none, gs "info",
          some (gs "New tool added")⟩]
      | some _ => muts) []
    removedModified ++ added

/-- The persistence tail of `storeScanResults` in `scanner.go`: the
current tools are inserted first, and only afterwards does
`detectMutations` fetch the server's tool definitions.  Returns the new
table and the emitted mutations. -/
def storeScanTools (P : PatternCatalogue) (table : List DBToolDefinition)
    (tools : List ToolDefinition) :
    List DBToolDefinition × List Mutation :=
  let table2 := insertToolDefinitions table tools
  (table2, detectMutations P (getToolDefinitionsForServer table2) tools)

/-- Tools of the C1 evaluation: scan 1 persists `alpha`. -/
def c1ToolA : ToolDefinition := ⟨gs "alpha", gs "da", none, gs "ha"⟩

/-- Tools of the C1 evaluation: scan 2 adds `beta`. -/
def c1ToolB : ToolDefinition := ⟨gs "beta", gs "db", none, gs "hb"⟩

/-- First scan: tool set `{alpha}` on an empty table. -/
def c1Scan1 : List DBToolDefinition × List Mutation :=
  storeScanTools trivialCatalogue [] [c1ToolA]

/-- Second scan: tool set `{alpha, beta}` (beta is new). -/
def c1Scan2 : List DBToolDefinition × List Mutation :=
  storeScanTools trivialCatalogue c1Scan1.1 [c1ToolA, c1ToolB]

/-- Third scan: tool set back to `{alpha}` (beta removed). -/
def c1Scan3 : List DBToolDefinition × List Mutation :=
  storeScanTools trivialCatalogue c1Scan2.1 [c1ToolA]

/-- Fourth scan: tool set `{alpha}` again (unchanged since scan 3). -/
def c1Scan4 : List DBToolDefinition × List Mutation :=
  storeScanTools trivialCatalogue c1Scan3.1 [c1ToolA]

/-- C1 evaluation of the code at the failing input: the first scan emits
no mutations (as claimed); the second scan adds tool `beta` yet emits no
mutations, because the tools were inserted before `detectMutations`
fetched the comparison set, so the current set is compared against
itself — the claimed one `New tool added` info mutation never appears;
and the fourth scan emits a `Tool was removed` warning for `beta` even
though the tool set did not change since the third scan, because removed
tools' rows persist in the table. -/
theorem C1_mutation_code_eval :
    c1Scan1.2 = [] ∧
    ([c1ToolA].map ToolDefinition.Name ≠
      [c1ToolA, c1ToolB].map ToolDefinition.Name) ∧
    c1Scan2.2 = [] ∧
    c1Scan4.2 = [⟨gs "beta", gs "hb", gs "(removed)", some (gs "db"),
      none, none, none, gs "warning", some (gs "Tool was removed")⟩] := by
  refine ⟨by decide, by decide, by decide, by decide⟩
